import Mathlib

/-!
Verification development for the blockchain management layer of
cardano-cli (src/blockchain/mod.rs).

The core under study owns a named on-disk blockchain instance: it tracks
the canonical tip via the reserved tag "tip", tracks remote peers via tags
"remote/<name>", and exposes a chain-range iterator between two header
hashes.

Shallow-embedding conventions:
- Header hashes are opaque identifiers compared only for equality; we model
  them as Nat.
- The content-addressed block store and the tag store are external
  collaborators (spec section 6); we model them as a `Storage` record with a
  block lookup function and a tag table.  A block's `compute_hash` is
  abstracted as a stored field (hashing itself is opaque); content
  addressing is expressed as the hypothesis that a block stored under key h
  computes hash h.
- Rust `panic!` in `load_tip` is modelled as the `.error` branch of an
  `Except`: a fatal outcome that the source never hands back to the caller
  as an error value.
- Filesystem effects (directory creation, config-file writing) are not
  modelled; `Storage.init`'s outcome is passed in as an `Except` argument.
-/

/-- Header hashes: opaque identifiers compared only for equality. -/
abbrev HeaderHash := Nat

/-- Chain-position date: genesis blocks carry only an epoch number, other
blocks an epoch and slot (cardano `block::BlockDate`). -/
inductive BlockDate where
  | Genesis (epoch : Nat)
  | Normal (epoch : Nat) (slot : Nat)
deriving DecidableEq, Repr

/-- A block header as the core consumes it: its computed hash, the previous
header hash, and the block date.  `headerHash` stands for the result of the
opaque `compute_hash`. -/
structure BlockHeader where
  headerHash : HeaderHash
  prev : HeaderHash
  date : BlockDate
deriving DecidableEq, Repr

/-- `header.compute_hash()`: hashing is opaque, abstracted as a field. -/
def BlockHeader.compute_hash (b : BlockHeader) : HeaderHash := b.headerHash

/-- `header.get_previous_header()`. -/
def BlockHeader.get_previous_header (b : BlockHeader) : HeaderHash := b.prev

/-- `header.get_blockdate()`. -/
def BlockHeader.get_blockdate (b : BlockHeader) : BlockDate := b.date

/-- `BlockRef` from exe_common: a position in the chain. -/
structure BlockRef where
  hash : HeaderHash
  parent : HeaderHash
  date : BlockDate
deriving DecidableEq, Repr

/-- Errors of the storage collaborator (cardano_storage): the distinguished
"no such tag" condition, "block not found", and other I/O failures. -/
inductive StorageError where
  | NoSuchTag
  | BlockNotFound (h : HeaderHash)
  | IoError (code : Nat)
deriving DecidableEq, Repr

/-- The storage collaborator: a content-addressed block lookup plus a
name-to-hash tag table.  Reading an absent tag yields `NoSuchTag`; the tag
table may also surface other I/O errors (spec section 6). -/
structure Storage where
  blocks : HeaderHash → Option BlockHeader
  tags : String → Except StorageError HeaderHash

/-- `tag::write_hash(store, tag, hash)`: upsert a tag binding. -/
def write_hash (st : Storage) (tagName : String) (h : HeaderHash) : Storage :=
  { st with tags := fun n => if n = tagName then .ok h else st.tags n }

/-- `tag::remove_tag(store, tag)`: idempotent delete; a removed tag reads
back as `NoSuchTag`. -/
def remove_tag (st : Storage) (tagName : String) : Storage :=
  { st with tags := fun n => if n = tagName then .error .NoSuchTag else st.tags n }

/-- `tag::read_tag(store, tag)`. -/
def read_tag (st : Storage) (tagName : String) : Except StorageError HeaderHash :=
  st.tags tagName

/-- `storage.get_block_from_tag(tag)`: resolve the tag to a hash, then fetch
the block stored under that hash. -/
def get_block_from_tag (st : Storage) (tagName : String) : Except StorageError BlockHeader :=
  match st.tags tagName with
  | .error e => .error e
  | .ok h =>
    match st.blocks h with
    | some b => .ok b
    | none => .error (.BlockNotFound h)

/-- A named peer of `net::Peers`: identity is the name; the payload is the
connection endpoint. -/
structure NamedPeer where
  name : String
  peer : String
deriving DecidableEq, Repr

/-- `net::Config`: the per-chain parameters the core reads (genesis hash,
genesis's declared parent, epoch-start date, peer list). -/
structure Config where
  genesis : HeaderHash
  genesis_prev : HeaderHash
  epoch_start : Nat
  peers : List NamedPeer
deriving DecidableEq, Repr

/-- `blockchain::Error` variants exercised here. -/
inductive Error where
  | NewCannotInitializeBlockchainDirectory (e : StorageError)
deriving DecidableEq, Repr

/-- The `Blockchain` manager: name, configuration, storage handle.
Filesystem paths (`dir`, `storage_config`) are not modelled. -/
structure Blockchain where
  name : String
  config : Config
  storage : Storage

/-- `LOCAL_BLOCKCHAIN_TIP_TAG`. -/
def LOCAL_BLOCKCHAIN_TIP_TAG : String := "tip"

/-- `Blockchain::mk_remote_tag`: `remote/<name>`. -/
def mk_remote_tag (remote : String) : String := "remote/" ++ remote

/-- `Blockchain::save_tip`: overwrite the `tip` tag. -/
def Blockchain.save_tip (bc : Blockchain) (hh : HeaderHash) : Blockchain :=
  { bc with storage := write_hash bc.storage LOCAL_BLOCKCHAIN_TIP_TAG hh }

/-- `Blockchain::load_tip`: resolve the `tip` tag.  `NoSuchTag` falls back
to the genesis `BlockRef` with flag true; any other storage error is
`panic!(err)`, modelled as the fatal `.error` branch (never an error value
returned to the caller); a resolved block yields a `BlockRef` built from its
header, flagged genesis iff its computed hash equals the genesis hash. -/
def Blockchain.load_tip (bc : Blockchain) : Except StorageError (BlockRef × Bool) :=
  let genesis_ref : BlockRef × Bool :=
    ({ hash := bc.config.genesis, parent := bc.config.genesis_prev,
       date := .Genesis bc.config.epoch_start }, true)
  match get_block_from_tag bc.storage LOCAL_BLOCKCHAIN_TIP_TAG with
  | .error .NoSuchTag => .ok genesis_ref
  | .error err => .error err
  | .ok block =>
    let hash := block.compute_hash
    let is_genesis := decide (hash = genesis_ref.1.hash)
    .ok ({ hash := hash, parent := block.get_previous_header,
           date := block.get_blockdate }, is_genesis)

/-- `Blockchain::add_peer`: append the peer to the registry and write the
`remote/<alias>` tag pointing at genesis.  Total: the source performs no
duplicate-alias check and returns unit. -/
def Blockchain.add_peer (bc : Blockchain) (remote_alias remote_endpoint : String) : Blockchain :=
  let tag := mk_remote_tag remote_alias
  let peer : NamedPeer := { name := remote_alias, peer := remote_endpoint }
  { bc with
      config := { bc.config with peers := bc.config.peers ++ [peer] },
      storage := write_hash bc.storage tag bc.config.genesis }

/-- `Blockchain::remove_peer`: keep only the peers whose name differs from
the alias, then delete the `remote/<alias>` tag. -/
def Blockchain.remove_peer (bc : Blockchain) (remote_alias : String) : Blockchain :=
  let peers := bc.config.peers.filter (fun np => np.name != remote_alias)
  let tag := mk_remote_tag remote_alias
  { bc with
      config := { bc.config with peers := peers },
      storage := remove_tag bc.storage tag }

/-- `Blockchain::new`: given the outcome of `Storage::init` (filesystem not
modelled), fail with `NewCannotInitializeBlockchainDirectory` on init
failure; otherwise write a `remote/<peer>` tag at genesis for every
configured peer, then set the `tip` tag to genesis.  Config-file
persistence (`config.to_file`) has no observable effect in this model. -/
def Blockchain.new (name : String) (config : Config)
    (init : Except StorageError Storage) : Except Error Blockchain :=
  match init with
  | .error e => .error (.NewCannotInitializeBlockchainDirectory e)
  | .ok storage =>
    let storage := config.peers.foldl
      (fun st peer => write_hash st (mk_remote_tag peer.name) config.genesis) storage
    let blockchain : Blockchain := { name := name, config := config, storage := storage }
    let blockchain := blockchain.save_tip blockchain.config.genesis
    .ok blockchain

/-- Errors of the chain-range iterator (spec sections 4.2 and 7). -/
inductive IterError where
  | UnknownBlock (h : HeaderHash)
  | NoPathFound (fromHash toHash : HeaderHash)
deriving DecidableEq, Repr

/-- Modelled from the spec: the backward walk of `iter::Iter::new`
(src/blockchain/iter.rs is not among the sources).  Walk parent links from
`cur`, accumulating hashes in front of `acc`, until the current hash equals
`fromHash` (success: the accumulated list is the forward, ancestor-first
path), an unresolvable hash is met (`UnknownBlock`), or the depth budget is
exhausted (`NoPathFound fromHash toHash`). -/
def iterWalk (store : HeaderHash → Option BlockHeader) (fromHash toHash : HeaderHash) :
    Nat → HeaderHash → List HeaderHash → Except IterError (List HeaderHash)
  | fuel, cur, acc =>
    if cur = fromHash then .ok acc
    else
      match fuel with
      | 0 => .error (.NoPathFound fromHash toHash)
      | Nat.succ fuel' =>
        match store cur with
        | none => .error (.UnknownBlock cur)
        | some b => iterWalk store fromHash toHash fuel' b.get_previous_header (cur :: acc)

/-- Modelled from the spec: construction of the chain-range iterator
`iter::Iter::new` (src/blockchain/iter.rs is not among the sources).
Equal endpoints give an empty valid range; otherwise `toHash` is resolved
(`UnknownBlock toHash` when absent) and the backward walk runs under the
configured maximum depth `maxDepth`.  The result is the resolved path of
hashes, excluding `fromHash`, including `toHash`, in ancestor-to-descendant
order; blocks are then yielded by fetching each hash in turn. -/
def Iter.new (store : HeaderHash → Option BlockHeader) (maxDepth : Nat)
    (fromHash toHash : HeaderHash) : Except IterError (List HeaderHash) :=
  if fromHash = toHash then .ok []
  else
    match store toHash with
    | none => .error (.UnknownBlock toHash)
    | some b => iterWalk store fromHash toHash maxDepth b.get_previous_header [toHash]

/-- `Blockchain::iter`: delegate to `Iter::new` on this chain's storage. -/
def Blockchain.iter (bc : Blockchain) (maxDepth : Nat) (fromHash toHash : HeaderHash) :
    Except IterError (List HeaderHash) :=
  Iter.new bc.storage.blocks maxDepth fromHash toHash

/-- `Blockchain::iter_to_tip`: resolve the local tip (propagating its fatal
outcome), then iterate from `fromHash` up to the tip hash. -/
def Blockchain.iter_to_tip (bc : Blockchain) (maxDepth : Nat) (fromHash : HeaderHash) :
    Except StorageError (Except IterError (List HeaderHash)) :=
  match bc.load_tip with
  | .error e => .error e
  | .ok (tipRef, _) => .ok (bc.iter maxDepth fromHash tipRef.hash)

/-- Spec-side restatement of OpenRangeToTip for the refinement claim:
"resolves the current local tip hash and delegates to
OpenRange(from, tipHash)". -/
def openRangeToTipSpec (bc : Blockchain) (maxDepth : Nat) (fromHash : HeaderHash) :
    Except StorageError (Except IterError (List HeaderHash)) :=
  match bc.load_tip with
  | .error e => .error e
  | .ok (tipRef, _) => .ok (Iter.new bc.storage.blocks maxDepth fromHash tipRef.hash)

/-- The hash reached after n backward parent-link steps from h, when every
step resolves in the store. -/
def backHash (store : HeaderHash → Option BlockHeader) : Nat → HeaderHash → Option HeaderHash
  | 0, h => some h
  | Nat.succ n, h =>
    match store h with
    | none => none
    | some b => backHash store n b.get_previous_header

/-! ### Helper lemmas about the backward walk -/

/-- One-alternative unfolding of `iterWalk`. -/
theorem iterWalk_eq (store : HeaderHash → Option BlockHeader) (f t : HeaderHash)
    (fuel : Nat) (cur : HeaderHash) (acc : List HeaderHash) :
    iterWalk store f t fuel cur acc =
      if cur = f then .ok acc
      else
        match fuel with
        | 0 => .error (.NoPathFound f t)
        | Nat.succ fuel' =>
          match store cur with
          | none => .error (.UnknownBlock cur)
          | some b => iterWalk store f t fuel' b.get_previous_header (cur :: acc) := by
  rw [iterWalk.eq_def]

/-- Reaching `fromHash` stops the walk with the accumulated path. -/
theorem iterWalk_reached (store : HeaderHash → Option BlockHeader) (f t : HeaderHash)
    (fuel : Nat) (acc : List HeaderHash) :
    iterWalk store f t fuel f acc = .ok acc := by
  rw [iterWalk_eq]; simp

/-- Exhausted depth budget away from `fromHash` gives `NoPathFound`. -/
theorem iterWalk_zero (store : HeaderHash → Option BlockHeader) (f t cur : HeaderHash)
    (acc : List HeaderHash) (h : cur ≠ f) :
    iterWalk store f t 0 cur acc = .error (.NoPathFound f t) := by
  rw [iterWalk_eq]; simp [h]

/-- An unresolvable current hash away from `fromHash` gives `UnknownBlock`. -/
theorem iterWalk_succ_none (store : HeaderHash → Option BlockHeader) (f t cur : HeaderHash)
    (acc : List HeaderHash) (fuel : Nat) (h : cur ≠ f) (hs : store cur = none) :
    iterWalk store f t (fuel + 1) cur acc = .error (.UnknownBlock cur) := by
  rw [iterWalk_eq]; simp [h, hs]

/-- A resolvable current hash away from `fromHash` steps to its parent. -/
theorem iterWalk_succ_some (store : HeaderHash → Option BlockHeader) (f t cur : HeaderHash)
    (acc : List HeaderHash) (fuel : Nat) (b : BlockHeader) (h : cur ≠ f)
    (hs : store cur = some b) :
    iterWalk store f t (fuel + 1) cur acc
      = iterWalk store f t fuel b.get_previous_header (cur :: acc) := by
  rw [iterWalk_eq]; simp [h, hs]

/-! ### C1, C4, C5, C6, C9: the chain-range iterator -/

/-- C1: for a stored chain G -> B1 -> B2 -> B3 of parent-linked blocks (with
none of B1, B2, B3 equal to G and a depth budget of at least 2 beyond the
endpoint resolution), OpenRange(G, B3) succeeds and yields exactly the path
[B1, B2, B3]: the from-hash is excluded, the to-hash included, and the order
is ancestor-to-descendant. -/
theorem openRange_valid_order (store : HeaderHash → Option BlockHeader) (maxDepth : Nat)
    (g b1 b2 b3 : HeaderHash) (blk1 blk2 blk3 : BlockHeader)
    (h1 : store b1 = some blk1) (h2 : store b2 = some blk2) (h3 : store b3 = some blk3)
    (p1 : blk1.get_previous_header = g) (p2 : blk2.get_previous_header = b1)
    (p3 : blk3.get_previous_header = b2)
    (n1 : b1 ≠ g) (n2 : b2 ≠ g) (n3 : b3 ≠ g) (hd : 2 ≤ maxDepth) :
    Iter.new store maxDepth g b3 = .ok [b1, b2, b3] := by
  obtain ⟨d, rfl⟩ : ∃ d, maxDepth = d + 2 := ⟨maxDepth - 2, by omega⟩
  unfold Iter.new
  rw [if_neg (Ne.symm n3), h3]
  show iterWalk store g b3 (d + 2) blk3.get_previous_header [b3] = Except.ok [b1, b2, b3]
  rw [p3, show d + 2 = (d + 1) + 1 by omega]
  rw [iterWalk_succ_some store g b3 b2 [b3] (d + 1) blk2 n2 h2, p2]
  rw [iterWalk_succ_some store g b3 b1 [b2, b3] d blk1 n1 h1, p1]
  exact iterWalk_reached store g b3 d [b1, b2, b3]

/-- Concrete instance of C1: the chain 0 -> 1 -> 2 -> 3. -/
def c1Store : HeaderHash → Option BlockHeader := fun h =>
  if h = 1 then some ⟨1, 0, .Normal 0 1⟩
  else if h = 2 then some ⟨2, 1, .Normal 0 2⟩
  else if h = 3 then some ⟨3, 2, .Normal 0 3⟩
  else none

/-- Witness for C1 at the concrete chain 0 -> 1 -> 2 -> 3. -/
theorem openRange_valid_order_witness :
    Iter.new c1Store 10 0 3 = .ok [1, 2, 3] :=
  openRange_valid_order c1Store 10 0 1 2 3
    ⟨1, 0, .Normal 0 1⟩ ⟨2, 1, .Normal 0 2⟩ ⟨3, 2, .Normal 0 3⟩
    (by decide) (by decide) (by decide) rfl rfl rfl
    (by decide) (by decide) (by decide) (by omega)

/-- C4: equal endpoints give a valid, empty range for every store, depth
budget and hash: construction never fails and the path is empty. -/
theorem openRange_empty (store : HeaderHash → Option BlockHeader) (maxDepth : Nat)
    (h : HeaderHash) : Iter.new store maxDepth h h = .ok [] := by
  simp [Iter.new]

/-- C5: with distinct endpoints and the to-hash absent from the store,
construction fails with UnknownBlock(to-hash), for every depth budget; no
path is produced. -/
theorem openRange_missing_endpoint (store : HeaderHash → Option BlockHeader)
    (maxDepth : Nat) (x y : HeaderHash) (hxy : x ≠ y) (hy : store y = none) :
    Iter.new store maxDepth x y = .error (.UnknownBlock y) := by
  unfold Iter.new
  rw [if_neg hxy, hy]

/-- Witness for C5: an empty store, endpoints 0 and 1. -/
theorem openRange_missing_endpoint_witness :
    Iter.new (fun _ => none) 10 0 1 = .error (.UnknownBlock 1) :=
  openRange_missing_endpoint (fun _ => none) 10 0 1 (by decide) rfl

/-- The backward walk returns `NoPathFound` whenever, within its depth
budget, every backward step from the current hash resolves in the store and
never meets `fromHash`. -/
theorem iterWalk_noPathFound (store : HeaderHash → Option BlockHeader) (x t : HeaderHash) :
    ∀ (fuel : Nat) (cur : HeaderHash) (acc : List HeaderHash),
      (∀ n ≤ fuel, (backHash store n cur).isSome ∧ backHash store n cur ≠ some x) →
      iterWalk store x t fuel cur acc = .error (.NoPathFound x t) := by
  intro fuel
  induction fuel with
  | zero =>
    intro cur acc hw
    have h0 := hw 0 (by omega)
    have hcur : cur ≠ x := by
      intro hc
      exact h0.2 (by simp [backHash, hc])
    exact iterWalk_zero store x t cur acc hcur
  | succ fuel ih =>
    intro cur acc hw
    have h0 := hw 0 (by omega)
    have hcur : cur ≠ x := by
      intro hc
      exact h0.2 (by simp [backHash, hc])
    have h1 := hw 1 (by omega)
    obtain ⟨b, hb⟩ : ∃ b, store cur = some b := by
      rcases hsc : store cur with _ | b
      · exfalso
        have : backHash store 1 cur = none := by simp [backHash, hsc]
        rw [this] at h1
        simp at h1
      · exact ⟨b, rfl⟩
    rw [iterWalk_succ_some store x t cur acc fuel b hcur hb]
    apply ih
    intro n hn
    have := hw (n + 1) (by omega)
    rwa [show backHash store (n + 1) cur = backHash store n b.get_previous_header by
      simp [backHash, hb]] at this

/-- C6: when the backward parent-link walk from Y stays inside the store and
never reaches X within the depth budget (unrelated forks, or malformed
cyclic parent links), OpenRange(X, Y) fails with NoPathFound(X, Y) and in
particular never returns a partial path. -/
theorem openRange_disconnected (store : HeaderHash → Option BlockHeader)
    (maxDepth : Nat) (x y : HeaderHash)
    (hwalk : ∀ n ≤ maxDepth + 1,
      (backHash store n y).isSome ∧ backHash store n y ≠ some x) :
    Iter.new store maxDepth x y = .error (.NoPathFound x y) ∧
    ∀ l, Iter.new store maxDepth x y ≠ .ok l := by
  have h0 := hwalk 0 (by omega)
  have hxy : x ≠ y := by
    intro hc
    exact h0.2 (by simp [backHash, hc])
  have h1 := hwalk 1 (by omega)
  obtain ⟨b, hb⟩ : ∃ b, store y = some b := by
    rcases hsc : store y with _ | b
    · exfalso
      have : backHash store 1 y = none := by simp [backHash, hsc]
      rw [this] at h1
      simp at h1
    · exact ⟨b, rfl⟩
  have hmain : Iter.new store maxDepth x y = .error (.NoPathFound x y) := by
    unfold Iter.new
    rw [if_neg hxy, hb]
    show iterWalk store x y maxDepth b.get_previous_header [y]
      = Except.error (.NoPathFound x y)
    apply iterWalk_noPathFound
    intro n hn
    have := hwalk (n + 1) (by omega)
    rwa [show backHash store (n + 1) y = backHash store n b.get_previous_header by
      simp [backHash, hb]] at this
  exact ⟨hmain, by rw [hmain]; intro l h; exact Except.noConfusion h⟩

/-- Concrete instance for C6: a two-element parent-link cycle 1 <-> 2
disconnected from the hash 5. -/
def c6Store : HeaderHash → Option BlockHeader := fun h =>
  if h = 1 then some ⟨1, 2, .Normal 0 1⟩
  else if h = 2 then some ⟨2, 1, .Normal 0 2⟩
  else none

/-- Witness for C6: walking back from 1 cycles between 1 and 2 and never
meets 5, so the range (5, 1) fails with NoPathFound. -/
theorem openRange_disconnected_witness :
    Iter.new c6Store 4 5 1 = .error (.NoPathFound 5 1) ∧
    ∀ l, Iter.new c6Store 4 5 1 ≠ .ok l :=
  openRange_disconnected c6Store 4 5 1 (by decide)

/-- C9: OpenRangeToTip(from) coincides, for every chain state, depth budget
and starting hash, with the spec-side composition that resolves the local
tip and delegates to OpenRange(from, tipHash): same fatal outcome or the
same constructed range. -/
theorem iterToTip_refines (bc : Blockchain) (maxDepth : Nat) (fromHash : HeaderHash) :
    bc.iter_to_tip maxDepth fromHash = openRangeToTipSpec bc maxDepth fromHash := rfl

/-! ### C2, C3: tip resolution -/

/-- C2: for a hash H naming a block present in the store (content
addressing: the stored block's computed hash is H), SaveLocalTip(H)
followed by LoadLocalTip() returns a BlockRef whose hash is H, with the
genesis flag true exactly when H is the configured genesis hash. -/
theorem saveTip_loadTip_round_trip (bc : Blockchain) (H : HeaderHash) (b : BlockHeader)
    (hb : bc.storage.blocks H = some b) (hwf : b.compute_hash = H) :
    ∃ ref : BlockRef, ∃ flag : Bool,
      (bc.save_tip H).load_tip = .ok (ref, flag) ∧
      ref.hash = H ∧ (flag = true ↔ H = bc.config.genesis) := by
  refine ⟨{ hash := H, parent := b.get_previous_header, date := b.get_blockdate },
    decide (H = bc.config.genesis), ?_, rfl, by simp⟩
  simp [Blockchain.save_tip, Blockchain.load_tip, get_block_from_tag, write_hash, hb, hwf]

/-- Concrete chain state for the C2 witness: genesis 0, one stored
non-genesis block with hash 5. -/
def c2Bc : Blockchain :=
  { name := "chain",
    config := { genesis := 0, genesis_prev := 9, epoch_start := 0, peers := [] },
    storage := { blocks := fun h => if h = 5 then some ⟨5, 0, .Normal 1 2⟩ else none,
                 tags := fun _ => .error .NoSuchTag } }

/-- Witness for C2 at hash 5 on `c2Bc`. -/
theorem saveTip_loadTip_round_trip_witness :
    ∃ ref : BlockRef, ∃ flag : Bool,
      (c2Bc.save_tip 5).load_tip = .ok (ref, flag) ∧
      ref.hash = 5 ∧ (flag = true ↔ (5 : HeaderHash) = c2Bc.config.genesis) :=
  saveTip_loadTip_round_trip c2Bc 5 ⟨5, 0, .Normal 1 2⟩ (by decide) (by decide)

/-- C3: LoadLocalTip recovers exactly the "no such tag" condition, mapping
it to the genesis BlockRef (hash = genesis, parent = genesis_prev, date =
genesis epoch-start) with flag true; any other storage error e during tip
resolution is fatal: the call ends in the panic branch carrying e, never in
an `.ok` value handed to the caller. -/
theorem loadTip_error_policy (bc : Blockchain) :
    (read_tag bc.storage LOCAL_BLOCKCHAIN_TIP_TAG = .error .NoSuchTag →
      bc.load_tip = .ok ({ hash := bc.config.genesis, parent := bc.config.genesis_prev,
                           date := .Genesis bc.config.epoch_start }, true)) ∧
    (∀ e : StorageError, e ≠ .NoSuchTag →
      get_block_from_tag bc.storage LOCAL_BLOCKCHAIN_TIP_TAG = .error e →
      bc.load_tip = .error e) := by
  constructor
  · intro h
    simp only [read_tag] at h
    simp only [Blockchain.load_tip, get_block_from_tag, h]
  · intro e he hget
    cases e with
    | NoSuchTag => exact absurd rfl he
    | BlockNotFound h => simp only [Blockchain.load_tip, hget]
    | IoError code => simp only [Blockchain.load_tip, hget]

/-- Chain state whose tip tag is absent, for the C3 witness. -/
def c3BcAbsent : Blockchain :=
  { name := "chain",
    config := { genesis := 0, genesis_prev := 9, epoch_start := 0, peers := [] },
    storage := { blocks := fun _ => none, tags := fun _ => .error .NoSuchTag } }

/-- Chain state whose tip tag read fails with an I/O error, for the C3
witness. -/
def c3BcIoErr : Blockchain :=
  { name := "chain",
    config := { genesis := 0, genesis_prev := 9, epoch_start := 0, peers := [] },
    storage := { blocks := fun _ => none, tags := fun _ => .error (.IoError 7) } }

/-- Witness for C3: absent tag yields the genesis BlockRef; an I/O error is
fatal and carries the error through. -/
theorem loadTip_error_policy_witness :
    c3BcAbsent.load_tip = .ok (⟨0, 9, .Genesis 0⟩, true) ∧
    c3BcIoErr.load_tip = .error (.IoError 7) :=
  ⟨(loadTip_error_policy c3BcAbsent).1 rfl,
   (loadTip_error_policy c3BcIoErr).2 (.IoError 7) (by decide) rfl⟩

/-! ### C7: add_peer and the duplicate-alias policy -/

/-- Chain state already holding a peer named "a", for the C7
counterexample and witness. -/
def c7Bc : Blockchain :=
  { name := "chain",
    config := { genesis := 0, genesis_prev := 9, epoch_start := 0,
                peers := [⟨"a", "ep1"⟩] },
    storage := { blocks := fun _ => none, tags := fun _ => .error .NoSuchTag } }

/-- Counterexample to C7: with the alias "a" already registered, AddPeer
does not fail and does not leave the peer list unchanged — it appends a
second entry with the same alias. -/
theorem addPeer_duplicate_counterexample :
    (∃ p ∈ c7Bc.config.peers, p.name = "a") ∧
    (c7Bc.add_peer "a" "ep2").config.peers ≠ c7Bc.config.peers ∧
    (c7Bc.add_peer "a" "ep2").config.peers = [⟨"a", "ep1"⟩, ⟨"a", "ep2"⟩] := by
  refine ⟨⟨⟨"a", "ep1"⟩, by decide, rfl⟩, ?_, ?_⟩ <;> decide

/-- C7 amended: AddPeer(alias, endpoint) never fails.  Even when a peer
with the same alias already exists it appends a new entry to the peer list
(producing a duplicate alias) and (re)writes the tag remote/<alias> to the
genesis hash, leaving every other tag unchanged. -/
theorem addPeer_appends (bc : Blockchain) (remote_alias remote_endpoint : String) :
    (bc.add_peer remote_alias remote_endpoint).config.peers
      = bc.config.peers ++ [⟨remote_alias, remote_endpoint⟩] ∧
    read_tag (bc.add_peer remote_alias remote_endpoint).storage (mk_remote_tag remote_alias)
      = .ok bc.config.genesis ∧
    ∀ t, t ≠ mk_remote_tag remote_alias →
      read_tag (bc.add_peer remote_alias remote_endpoint).storage t
        = read_tag bc.storage t := by
  refine ⟨rfl, ?_, ?_⟩
  · simp [Blockchain.add_peer, read_tag, write_hash]
  · intro t ht
    simp [Blockchain.add_peer, read_tag, write_hash, if_neg ht]

/-- Witness for C7's amended claim on `c7Bc`: the duplicate alias is
appended, its tag points at genesis, and the unrelated tag "tip" is
untouched. -/
theorem addPeer_appends_witness :
    (c7Bc.add_peer "a" "ep2").config.peers = c7Bc.config.peers ++ [⟨"a", "ep2"⟩] ∧
    read_tag (c7Bc.add_peer "a" "ep2").storage (mk_remote_tag "a")
      = .ok c7Bc.config.genesis ∧
    read_tag (c7Bc.add_peer "a" "ep2").storage "tip" = read_tag c7Bc.storage "tip" :=
  ⟨(addPeer_appends c7Bc "a" "ep2").1,
   (addPeer_appends c7Bc "a" "ep2").2.1,
   (addPeer_appends c7Bc "a" "ep2").2.2 "tip" (by decide)⟩

/-! ### C8: tags written by chain creation -/

/-- A `remote/<name>` tag never collides with the reserved `tip` tag. -/
theorem mk_remote_tag_ne_tip (s : String) : mk_remote_tag s ≠ LOCAL_BLOCKCHAIN_TIP_TAG := by
  intro h
  have hlen := congrArg String.length h
  rw [mk_remote_tag, LOCAL_BLOCKCHAIN_TIP_TAG, String.length_append] at hlen
  have h7 : ("remote/" : String).length = 7 := rfl
  have h3 : ("tip" : String).length = 3 := rfl
  rw [h7, h3] at hlen
  omega

/-- Folding remote-tag writes of one hash over a peer list preserves any tag
already bound to that hash. -/
theorem foldWrite_preserve (g : HeaderHash) (l : List NamedPeer) :
    ∀ (st : Storage) (t : String), st.tags t = .ok g →
      (l.foldl (fun st peer => write_hash st (mk_remote_tag peer.name) g) st).tags t
        = .ok g := by
  induction l with
  | nil => intro st t h; exact h
  | cons q rest ih =>
    intro st t h
    apply ih
    by_cases hq : t = mk_remote_tag q.name
    · simp [write_hash, hq]
    · simp [write_hash, if_neg hq, h]

/-- After folding remote-tag writes over a peer list, every listed peer's
remote tag is bound to the written hash. -/
theorem foldWrite_mem (g : HeaderHash) (l : List NamedPeer) :
    ∀ (st : Storage) (p : NamedPeer), p ∈ l →
      (l.foldl (fun st peer => write_hash st (mk_remote_tag peer.name) g) st).tags
        (mk_remote_tag p.name) = .ok g := by
  induction l with
  | nil => intro st p h; cases h
  | cons q rest ih =>
    intro st p hp
    rcases List.mem_cons.mp hp with hq | hrest
    · subst hq
      exact foldWrite_preserve g rest (write_hash st (mk_remote_tag p.name) g)
        (mk_remote_tag p.name) (by simp [write_hash])
    · exact ih (write_hash st (mk_remote_tag q.name) g) p hrest

/-- C8: creating a chain from a successfully initialized storage always
succeeds, and in the resulting state every peer named in the configuration
has its remote/<peer> tag bound to the genesis hash and the tip tag is
bound to the genesis hash. -/
theorem create_writes_tags (name : String) (config : Config) (st : Storage) :
    ∃ bc : Blockchain, Blockchain.new name config (.ok st) = .ok bc ∧
      (∀ p ∈ config.peers,
        read_tag bc.storage (mk_remote_tag p.name) = .ok config.genesis) ∧
      read_tag bc.storage LOCAL_BLOCKCHAIN_TIP_TAG = .ok config.genesis := by
  refine ⟨_, rfl, ?_, ?_⟩
  · intro p hp
    simp only [Blockchain.new, Blockchain.save_tip, read_tag, write_hash,
      if_neg (mk_remote_tag_ne_tip p.name)]
    exact foldWrite_mem config.genesis config.peers st p hp
  · simp [Blockchain.new, Blockchain.save_tip, read_tag, write_hash]

/-- Witness for C8: one configured peer "a", fresh empty storage. -/
theorem create_writes_tags_witness :
    ∃ bc : Blockchain,
      Blockchain.new "n" ⟨5, 9, 0, [⟨"a", "e"⟩]⟩
        (.ok ⟨fun _ => none, fun _ => .error .NoSuchTag⟩) = .ok bc ∧
      read_tag bc.storage (mk_remote_tag "a") = .ok 5 ∧
      read_tag bc.storage LOCAL_BLOCKCHAIN_TIP_TAG = .ok 5 := by
  obtain ⟨bc, hnew, hrem, htip⟩ := create_writes_tags "n" ⟨5, 9, 0, [⟨"a", "e"⟩]⟩
    ⟨fun _ => none, fun _ => .error .NoSuchTag⟩
  exact ⟨bc, hnew, hrem ⟨"a", "e"⟩ (by decide), htip⟩

/-! ### C10: remove_peer -/

/-- C10: RemovePeer(alias) removes every entry named alias (duplicates
included), keeps the surviving peers as a sublist (relative order
preserved) containing all peers with a different name, is the identity on
the peer list when no entry matches (so the call succeeds with no matching
peer), makes the remote/<alias> tag read back as absent, and leaves every
other tag unchanged. -/
theorem removePeer_filters (bc : Blockchain) (remote_alias : String) :
    (∀ p ∈ (bc.remove_peer remote_alias).config.peers, p.name ≠ remote_alias) ∧
    (bc.remove_peer remote_alias).config.peers.Sublist bc.config.peers ∧
    (∀ p ∈ bc.config.peers, p.name ≠ remote_alias →
      p ∈ (bc.remove_peer remote_alias).config.peers) ∧
    ((∀ p ∈ bc.config.peers, p.name ≠ remote_alias) →
      (bc.remove_peer remote_alias).config.peers = bc.config.peers) ∧
    read_tag (bc.remove_peer remote_alias).storage (mk_remote_tag remote_alias)
      = .error .NoSuchTag ∧
    ∀ t, t ≠ mk_remote_tag remote_alias →
      read_tag (bc.remove_peer remote_alias).storage t = read_tag bc.storage t := by
  refine ⟨?_, ?_, ?_, ?_, ?_, ?_⟩
  · intro p hp
    have := (List.mem_filter.mp hp).2
    simpa using this
  · exact List.filter_sublist bc.config.peers
  · intro p hp hne
    exact List.mem_filter.mpr ⟨hp, by simpa using hne⟩
  · intro hall
    apply List.filter_eq_self.mpr
    intro p hp
    simpa using hall p hp
  · simp [Blockchain.remove_peer, read_tag, remove_tag]
  · intro t ht
    simp [Blockchain.remove_peer, read_tag, remove_tag, if_neg ht]

/-- Chain state with a duplicate alias "a" for the C10 witness. -/
def c10Bc : Blockchain :=
  { name := "chain",
    config := { genesis := 0, genesis_prev := 9, epoch_start := 0,
                peers := [⟨"a", "1"⟩, ⟨"b", "2"⟩, ⟨"a", "3"⟩] },
    storage := { blocks := fun _ => none,
                 tags := fun n => if n = "remote/a" then .ok 0
                                  else .error .NoSuchTag } }

/-- Witness for C10 on `c10Bc`: the surviving peer "b" is kept, the tag
remote/a is gone, the tag "tip" is untouched. -/
theorem removePeer_filters_witness :
    (⟨"b", "2"⟩ : NamedPeer) ∈ (c10Bc.remove_peer "a").config.peers ∧
    read_tag (c10Bc.remove_peer "a").storage (mk_remote_tag "a")
      = .error .NoSuchTag ∧
    read_tag (c10Bc.remove_peer "a").storage "tip" = read_tag c10Bc.storage "tip" :=
  ⟨(removePeer_filters c10Bc "a").2.2.1 ⟨"b", "2"⟩ (by decide) (by decide),
   (removePeer_filters c10Bc "a").2.2.2.2.1,
   (removePeer_filters c10Bc "a").2.2.2.2.2 "tip" (by decide)⟩
